import Mathlib

/-!
Verification of the gitcube-lab behavioral scoring core.

This development shallowly embeds the Python core of the repository
(memory atoms, the memory store, the navigator, and the two meta-control
steps) into Lean and proves the spec's testable properties about the
embedded definitions.  Python floats are modelled as exact rationals
(reals where a square root occurs); Python's falsy coercions
(`x or default`) are modelled explicitly; JSON dictionaries are modelled
as structures whose optional keys are `Option` fields.
-/

namespace GitCube

/-- Model of Python `str.strip()`: drop leading and trailing whitespace.
Defined over the character list so that proofs can evaluate it. -/
def pyStrip (s : String) : String :=
  ⟨((s.data.dropWhile Char.isWhitespace).reverse.dropWhile
    Char.isWhitespace).reverse⟩

/-- Model of Python `str.upper()` (the source only upper-cases ASCII
verdict words). -/
def pyUpper (s : String) : String :=
  ⟨s.data.map Char.toUpper⟩

/-- Model of Python `str.lower()`. -/
def pyLower (s : String) : String :=
  ⟨s.data.map Char.toLower⟩

/-- Character-list drop, modelling slicing off a known prefix. -/
def pyDrop (s : String) (n : ℕ) : String :=
  ⟨s.data.drop n⟩

/-- Model of Python `str.startswith(pat)`. -/
def pyStartsWith (s pat : String) : Bool :=
  pat.data.isPrefixOf s.data

/-- Left-to-right non-overlapping replacement loop of Python
`str.replace(pat, rep)`; `fuel` bounds the recursion by the input length
(the source only replaces non-empty literals, for which the fuel
suffices). -/
def pyReplaceGo (pat rep : List Char) : ℕ → List Char → List Char
  | 0, l => l
  | _ + 1, [] => []
  | fuel + 1, c :: rest =>
      if pat.isPrefixOf (c :: rest) then
        rep ++ pyReplaceGo pat rep fuel ((c :: rest).drop pat.length)
      else c :: pyReplaceGo pat rep fuel rest

/-- Model of Python `str.replace(pat, rep)` for non-empty `pat`. -/
def pyReplace (s pat rep : String) : String :=
  ⟨pyReplaceGo pat.data rep.data s.data.length s.data⟩

/-- Fold step splitting a character list into whitespace-separated
groups. -/
def splitStep (p : Char → Bool) (c : Char) (acc : List (List Char)) :
    List (List Char) :=
  if p c then [] :: acc
  else
    match acc with
    | [] => [[c]]
    | g :: gs => (c :: g) :: gs

/-- Model of argumentless Python `str.split()`: split on whitespace runs,
discarding empty groups. -/
def pySplitWs (s : String) : List String :=
  ((s.data.foldr (splitStep (fun c => c.isWhitespace)) [[]]).filter
    (fun g => !g.isEmpty)).map (fun g => ⟨g⟩)

/-- Model of Python `sep.join(parts)`. -/
def pyJoin (sep : String) : List String → String
  | [] => ""
  | [x] => x
  | x :: y :: rest => x ++ sep ++ pyJoin sep (y :: rest)

/-- Model of Python `x or default` for strings: the empty string is falsy. -/
def orStr (v : Option String) (d : String) : String :=
  match v with
  | none => d
  | some s => if s = "" then d else s

/-- Model of Python `x or default` for rationals: `0.0` is falsy. -/
def orQ (x d : ℚ) : ℚ :=
  if x = 0 then d else x

/-- Model of Python `x or default` for integers: `0` is falsy. -/
def orZ (x d : ℤ) : ℤ :=
  if x = 0 then d else x

/-- Model of `float(dict.get(key, now) or now)`: a missing or zero value
falls back to the default. -/
def orOptQ (v : Option ℚ) (d : ℚ) : ℚ :=
  match v with
  | none => d
  | some x => orQ x d

/-- Model of `int(dict.get(key, 1) or 1)`: a missing or zero value falls
back to the default. -/
def orOptZ (v : Option ℤ) (d : ℤ) : ℤ :=
  match v with
  | none => d
  | some x => orZ x d

/-- Quantizer `_q(x, ndigits)` of `memory/atom.py`: round to a fixed number
of decimal digits.  Mathlib's `round` rounds half upward while Python's
`round` rounds half to even; the claims and witnesses below never sit on a
half-way tie, where the two differ. -/
def q (ndigits : ℕ) (x : ℚ) : ℚ :=
  (round (x * (10 : ℚ) ^ ndigits) : ℤ) / (10 : ℚ) ^ ndigits

/-- Model of `_q(dict.get(key), n)`: `float(None)` raises, so a missing
value quantizes to `0.0`. -/
def qOpt (ndigits : ℕ) (v : Option ℚ) : ℚ :=
  match v with
  | none => 0
  | some x => q ndigits x

/-- Signed cross product `x1*y2 - x2*y1` of two points, the summand of the
shoelace loop in `polygon_area` (`memory/atom.py`) and `shoelace_area`
(`memory/flower.py`). -/
def cross (p p2 : ℚ × ℚ) : ℚ :=
  p.1 * p2.2 - p2.1 * p.2

/-- Shoelace loop `for i in range(n): s += x1*y2 - x2*y1` with wrap-around:
sums `cross` over consecutive points and closes the cycle with `first`. -/
def shoelaceGo (first : ℚ × ℚ) : List (ℚ × ℚ) → ℚ
  | [] => 0
  | [p] => cross p first
  | p :: p2 :: rest => cross p p2 + shoelaceGo first (p2 :: rest)

/-- Embeds `polygon_area` of `memory/atom.py`: zero below three points,
otherwise half the absolute value of the cyclic cross-product sum. -/
def polygon_area (points : List (ℚ × ℚ)) : ℚ :=
  match points with
  | p :: p2 :: p3 :: rest => |shoelaceGo p (p :: p2 :: p3 :: rest)| * (1 / 2)
  | _ => 0

/-- Embeds `shoelace_area` of `memory/flower.py`; its body is the same
computation as `polygon_area`. -/
def shoelace_area (points : List (ℚ × ℚ)) : ℚ :=
  polygon_area points

/-- Embeds `phase_state_from` of `memory/atom.py`: clamp the band into
`[1,7]` and the direction into `[0,5]`, then combine. -/
def phase_state_from (band phase_dir : ℤ) : ℤ :=
  (max 1 (min 7 band) - 1) * 6 + max 0 (min 5 phase_dir) + 1

/-- On collinear points `g t = (ax + t*vx, ay + t*vy)` the cross product is
`c * (t - s)` for the fixed constant `c = ax*vy - ay*vx`, so the shoelace
loop telescopes. -/
theorem shoelaceGo_line (ax ay vx vy : ℚ) (ts : List ℚ) (t0 t : ℚ) :
    shoelaceGo (ax + t0 * vx, ay + t0 * vy)
      ((ax + t * vx, ay + t * vy) ::
        ts.map (fun u => (ax + u * vx, ay + u * vy))) =
      (ax * vy - ay * vx) * (t0 - t) := by
  induction ts generalizing t with
  | nil => simp only [List.map_nil, shoelaceGo, cross]; ring
  | cons u rest ih =>
      simp only [List.map_cons, shoelaceGo, cross] at ih ⊢
      rw [ih u]
      ring

/-- Embeds `mean_std` of `hfs/hfs_demo.py`: mean and sample standard
deviation (denominator `max 1 (len - 1)`), with `(0, 0)` on the empty
list.  The float `math.sqrt` is modelled by the exact real square root. -/
noncomputable def mean_std (xs : List ℝ) : ℝ × ℝ :=
  match xs with
  | [] => (0, 0)
  | _ :: _ =>
      let m : ℝ := xs.sum / (xs.length : ℝ)
      let v : ℝ := (xs.map (fun x => (x - m) ^ 2)).sum / ((max 1 (xs.length - 1) : ℕ) : ℝ)
      (m, Real.sqrt v)

/-- Result dictionary of `navigator_verdict`; the empty-series branch of
the source returns no `last_risk` entry, modelled by `none`. -/
structure NavResult where
  verdict : String
  mu : ℝ
  sigma : ℝ
  warn : ℝ
  blockTh : ℝ
  last_risk : Option ℝ

/-- Embeds `navigator_verdict` of `hfs/hfs_demo.py`: baseline over the
warm-up prefix of the first `max(2, int(0.60*n))` risks, verdict from the
last risk against `mu+2*sigma` and `mu+3*sigma`.  Since the float product
`0.60*n` always rounds to a value with the same floor as the exact `3n/5`
(the relative error of the float `0.60` is below a half ulp of any
integer), `int(0.60*n)` is embedded as Nat division `3*n/5`. -/
noncomputable def navigator_verdict (risks : List ℝ) : NavResult :=
  match risks with
  | [] => ⟨"ALLOW", 0, 0, 0, 0, none⟩
  | r :: rest =>
      let n := (r :: rest).length
      let warm := max 2 (3 * n / 5)
      let base := (r :: rest).take warm
      let ms := mean_std base
      let warn := ms.1 + 2 * ms.2
      let blockTh := ms.1 + 3 * ms.2
      let last := (r :: rest).getLast (List.cons_ne_nil r rest)
      let v := if last > blockTh then "BLOCK" else if last > warn then "WARN" else "ALLOW"
      ⟨v, ms.1, ms.2, warn, blockTh, some last⟩

/-- On a non-empty list, `mean_std` computes the mean and the square root
of the sample variance. -/
theorem mean_std_ne_nil (xs : List ℝ) (h : xs ≠ []) :
    mean_std xs =
      (xs.sum / (xs.length : ℝ),
        Real.sqrt ((xs.map (fun x => (x - xs.sum / (xs.length : ℝ)) ^ 2)).sum /
          ((max 1 (xs.length - 1) : ℕ) : ℝ))) := by
  match xs with
  | [] => exact absurd rfl h
  | a :: l => rfl

/-- Warm-up prefix of a risk series, as the spec words it: the first
`max(2, floor(0.60*n))` values. -/
def warmPrefix (risks : List ℝ) : List ℝ :=
  risks.take (max 2 (3 * risks.length / 5))

/-- Mean of a risk prefix, as the spec words it. -/
noncomputable def claimMu (base : List ℝ) : ℝ :=
  base.sum / (base.length : ℝ)

/-- Sample standard deviation of a risk prefix, as the spec words it. -/
noncomputable def claimSigma (base : List ℝ) : ℝ :=
  Real.sqrt ((base.map (fun x => (x - claimMu base) ^ 2)).sum /
    ((max 1 (base.length - 1) : ℕ) : ℝ))

/-- C2: for every non-empty risk series of length `n`, the Navigator
computes `(mu, sigma)` as mean and sample standard deviation over the
warm-up prefix of the first `max(2, floor(0.60*n))` values, sets
`warn = mu+2*sigma` and `block = mu+3*sigma`, and classifies the last
value: BLOCK iff it exceeds `mu+3*sigma`, WARN iff it exceeds `mu+2*sigma`
but not `mu+3*sigma`, ALLOW otherwise. -/
theorem C2_navigator_classification (risks : List ℝ) (h : risks ≠ []) :
    (navigator_verdict risks).mu = claimMu (warmPrefix risks) ∧
    (navigator_verdict risks).sigma = claimSigma (warmPrefix risks) ∧
    (navigator_verdict risks).warn =
      claimMu (warmPrefix risks) + 2 * claimSigma (warmPrefix risks) ∧
    (navigator_verdict risks).blockTh =
      claimMu (warmPrefix risks) + 3 * claimSigma (warmPrefix risks) ∧
    (navigator_verdict risks).last_risk = some (risks.getLast h) ∧
    ((navigator_verdict risks).verdict = "BLOCK" ↔
      risks.getLast h >
        claimMu (warmPrefix risks) + 3 * claimSigma (warmPrefix risks)) ∧
    ((navigator_verdict risks).verdict = "WARN" ↔
      (risks.getLast h >
          claimMu (warmPrefix risks) + 2 * claimSigma (warmPrefix risks) ∧
        ¬risks.getLast h >
          claimMu (warmPrefix risks) + 3 * claimSigma (warmPrefix risks))) ∧
    ((navigator_verdict risks).verdict = "ALLOW" ↔
      ¬risks.getLast h >
        claimMu (warmPrefix risks) + 2 * claimSigma (warmPrefix risks)) := by
  match risks with
  | r :: rest =>
      have hbase : warmPrefix (r :: rest) ≠ [] := by
        have : 0 < (warmPrefix (r :: rest)).length := by
          simp only [warmPrefix, List.length_take]
          simp [Nat.lt_min]
        exact List.ne_nil_of_length_pos this
      have hms : mean_std ((r :: rest).take (max 2 (3 * (r :: rest).length / 5))) =
          (claimMu (warmPrefix (r :: rest)),
            claimSigma (warmPrefix (r :: rest))) := by
        rw [show (r :: rest).take (max 2 (3 * (r :: rest).length / 5)) =
          warmPrefix (r :: rest) from rfl, mean_std_ne_nil _ hbase]
        rfl
      have hσ : 0 ≤ claimSigma (warmPrefix (r :: rest)) :=
        Real.sqrt_nonneg _
      unfold navigator_verdict
      simp only [hms]
      refine ⟨trivial, trivial, trivial, trivial, trivial, ?_, ?_, ?_⟩ <;>
        split_ifs with h1 h2 <;> simp_all <;> linarith

/-- Witness for C2 at the series `[0, 2, 4, 1, 7]`: the warm-up prefix is
`[0, 2, 4]`, so `mu = 2`, `sigma = 2`, and the last value 7 exceeds
`mu + 2*sigma = 6` but not `mu + 3*sigma = 8`, giving WARN. -/
theorem C2_navigator_classification_witness :
    (navigator_verdict [0, 2, 4, 1, 7]).verdict = "WARN" ∧
      (navigator_verdict [0, 2, 4, 1, 7]).mu = 2 ∧
      (navigator_verdict [0, 2, 4, 1, 7]).sigma = 2 := by
  have hwp : warmPrefix [0, 2, 4, 1, 7] = ([0, 2, 4] : List ℝ) := by
    norm_num [warmPrefix]
  have hmu : claimMu ([0, 2, 4] : List ℝ) = 2 := by
    norm_num [claimMu]
  have hsig : claimSigma ([0, 2, 4] : List ℝ) = 2 := by
    unfold claimSigma
    rw [hmu]
    rw [show ((([0, 2, 4] : List ℝ).map (fun x => (x - 2) ^ 2)).sum /
        ((max 1 (([0, 2, 4] : List ℝ).length - 1) : ℕ) : ℝ)) = 4 by
      norm_num]
    rw [show (4 : ℝ) = 2 ^ 2 by norm_num, Real.sqrt_sq (by norm_num)]
  have h := C2_navigator_classification [0, 2, 4, 1, 7] (by simp)
  rw [hwp, hmu, hsig] at h
  rw [show ([0, 2, 4, 1, 7] : List ℝ).getLast (by simp) = 7 from rfl] at h
  exact ⟨h.2.2.2.2.2.2.1.mpr (by norm_num), h.1, h.2.1⟩

/-- C3 fails as stated: on the single-element series `[1/2]` the Navigator
does return ALLOW, but the baseline is not zero — `mu = 1/2` and the
thresholds equal `1/2`. -/
theorem C3_counterexample :
    (navigator_verdict [(1 : ℝ) / 2]).verdict = "ALLOW" ∧
      (navigator_verdict [(1 : ℝ) / 2]).mu = 1 / 2 ∧
      (navigator_verdict [(1 : ℝ) / 2]).warn = 1 / 2 ∧
      ((1 : ℝ) / 2 ≠ 0) := by
  unfold navigator_verdict
  simp only [List.length_cons, List.length_nil, List.take, mean_std,
    List.sum_cons, List.sum_nil, List.map, List.getLast]
  norm_num

/-- C3 amended: on the empty series the Navigator returns ALLOW with the
all-zero baseline (and no last risk); on a single-element series `[x]` it
returns ALLOW with `mu = x`, `sigma = 0`, and both thresholds equal to
`x`. -/
theorem C3_short_series_allow (x : ℝ) :
    navigator_verdict [] = ⟨"ALLOW", 0, 0, 0, 0, none⟩ ∧
      navigator_verdict [x] = ⟨"ALLOW", x, 0, x, x, some x⟩ := by
  constructor
  · rfl
  · unfold navigator_verdict
    simp only [List.length_cons, List.length_nil, List.take, mean_std,
      List.sum_cons, List.sum_nil, List.map, List.getLast]
    norm_num

/-- C7: for every band in `[1,7]` and direction in `[0,5]`,
`phase_state_from` equals `(band-1)*6 + direction + 1`, lies within
`[1,42]`, and the mapping `(band, direction) -> phase_state` is injective,
so band and direction are uniquely recoverable from the phase state. -/
theorem C7_phase_state_bijective :
    (∀ b d : ℤ, 1 ≤ b ∧ b ≤ 7 → 0 ≤ d ∧ d ≤ 5 →
      phase_state_from b d = (b - 1) * 6 + d + 1 ∧
        1 ≤ phase_state_from b d ∧ phase_state_from b d ≤ 42) ∧
    (∀ b1 d1 b2 d2 : ℤ, 1 ≤ b1 ∧ b1 ≤ 7 → 0 ≤ d1 ∧ d1 ≤ 5 →
      1 ≤ b2 ∧ b2 ≤ 7 → 0 ≤ d2 ∧ d2 ≤ 5 →
      phase_state_from b1 d1 = phase_state_from b2 d2 → b1 = b2 ∧ d1 = d2) := by
  unfold phase_state_from
  constructor
  · intro b d hb hd
    rw [min_eq_right hb.2, max_eq_right hb.1, min_eq_right hd.2, max_eq_right hd.1]
    omega
  · intro b1 d1 b2 d2 hb1 hd1 hb2 hd2 h
    rw [min_eq_right hb1.2, max_eq_right hb1.1, min_eq_right hd1.2,
      max_eq_right hd1.1, min_eq_right hb2.2, max_eq_right hb2.1,
      min_eq_right hd2.2, max_eq_right hd2.1] at h
    omega

/-- Witness for C7 at band 7, direction 5: the phase state is 42. -/
theorem C7_phase_state_bijective_witness :
    phase_state_from 7 5 = ((7 : ℤ) - 1) * 6 + 5 + 1 ∧
      ((7 : ℤ) - 1) * 6 + 5 + 1 = 42 := by
  exact ⟨(C7_phase_state_bijective.1 7 5 (by decide) (by decide)).1, by decide⟩

/-- C8: the shoelace polygon-area function returns 0 for every trajectory
of fewer than 3 points and for every closed trajectory of collinear points
`(ax + t*vx, ay + t*vy)`, and returns `s*s` for the 4-corner trajectory of
an axis-aligned square with side length `s`; `shoelace_area` of
`memory/flower.py` computes the same value. -/
theorem C8_shoelace_area :
    (∀ points : List (ℚ × ℚ), points.length < 3 → polygon_area points = 0) ∧
    (∀ ax ay vx vy : ℚ, ∀ ts : List ℚ,
      polygon_area (ts.map (fun t => (ax + t * vx, ay + t * vy))) = 0) ∧
    (∀ x y s : ℚ,
      polygon_area [(x, y), (x + s, y), (x + s, y + s), (x, y + s)] = s * s) ∧
    (∀ points : List (ℚ × ℚ), shoelace_area points = polygon_area points) := by
  refine ⟨?_, ?_, ?_, fun _ => rfl⟩
  · intro points h
    match points with
    | [] => rfl
    | [_] => rfl
    | [_, _] => rfl
    | _ :: _ :: _ :: _ => simp at h; omega
  · intro ax ay vx vy ts
    match ts with
    | [] => rfl
    | [_] => rfl
    | [_, _] => rfl
    | t :: u :: w :: rest =>
        show |shoelaceGo (ax + t * vx, ay + t * vy) _| * (1 / 2) = 0
        have h := shoelaceGo_line ax ay vx vy (u :: w :: rest) t t
        simp only [List.map_cons] at h ⊢
        rw [h]
        simp
  · intro x y s
    show |cross (x, y) (x + s, y) +
        (cross (x + s, y) (x + s, y + s) +
          (cross (x + s, y + s) (x, y + s) +
            cross (x, y + s) (x, y)))| * (1 / 2) = s * s
    have h : cross (x, y) (x + s, y) +
        (cross (x + s, y) (x + s, y + s) +
          (cross (x + s, y + s) (x, y + s) +
            cross (x, y + s) (x, y))) = 2 * s ^ 2 := by
      simp only [cross]; ring
    rw [h, abs_of_nonneg (by positivity)]
    ring

/-- Witness for C8 at the two-point trajectory `[(0,0),(1,1)]`: shorter
than 3 points, and its area is 0. -/
theorem C8_shoelace_area_witness :
    ([((0 : ℚ), (0 : ℚ)), (1, 1)].length < 3) ∧
      polygon_area [((0 : ℚ), (0 : ℚ)), (1, 1)] = 0 :=
  ⟨by decide, C8_shoelace_area.1 [((0 : ℚ), (0 : ℚ)), (1, 1)] (by decide)⟩

/-- Numeric keys of a metrics dictionary that `memory/atom.py` reads;
`none` models a missing key. -/
structure Metrics where
  risk : Option ℚ
  last_risk : Option ℚ
  spectral_entropy : Option ℚ
  specH : Option ℚ
  entropy : Option ℚ
  cusum : Option ℚ
  deriving DecidableEq

/-- Metrics dictionary with no relevant keys. -/
def Metrics.empty : Metrics := ⟨none, none, none, none, none, none⟩

/-- Numeric keys of a baseline dictionary that `memory/atom.py` reads. -/
structure Baseline where
  mu : Option ℚ
  sigma : Option ℚ
  warn_threshold : Option ℚ
  block_threshold : Option ℚ
  last_risk : Option ℚ
  specH : Option ℚ
  cusum : Option ℚ
  deriving DecidableEq

/-- Baseline dictionary with no relevant keys. -/
def Baseline.empty : Baseline := ⟨none, none, none, none, none, none, none⟩

/-- One entry of a `flower_cycle` list: a dictionary with optional
`risk`/`specH` keys. -/
structure CyclePoint where
  risk : Option ℚ
  specH : Option ℚ
  deriving DecidableEq

/-- The `flower` dictionary alternative with an optional `points` list. -/
structure FlowerField where
  points : Option (List (ℚ × ℚ))
  deriving DecidableEq

/-- Input report of `MemoryAtom.from_report`, restricted to the keys that
`memory/atom.py` reads.  `metrics_prev_window`/`metrics_previous_window`
are `some m` exactly when the report carries a non-empty previous-window
dictionary (the source tests the dictionary's truthiness, so a present but
empty dictionary behaves like a missing one). -/
structure Report where
  kind : Option String
  type_ : Option String
  version : Option String
  verdict : Option String
  dna : Option String
  band : Option ℤ
  risk : Option ℚ
  metrics : Option Metrics
  metrics_last_window : Option Metrics
  metrics_prev_window : Option Metrics
  metrics_previous_window : Option Metrics
  baseline : Option Baseline
  flower_cycle : Option (List CyclePoint)
  flower : Option FlowerField
  deriving DecidableEq

/-- Embeds `_pick_metrics`: `metrics`, else `metrics_last_window`, else an
empty dictionary. -/
def pick_metrics (r : Report) : Metrics :=
  (r.metrics <|> r.metrics_last_window).getD Metrics.empty

/-- Embeds `_pick_prev_metrics` combined with the truthiness test
`if prev:` of `infer_phase_dir`. -/
def pick_prev_metrics (r : Report) : Option Metrics :=
  r.metrics_prev_window <|> r.metrics_previous_window

/-- Embeds `normalize_dna_key` of `memory/atom.py`: strip, drop a leading
case-insensitive `dna:` tag, split on whitespace after replacing commas,
keep tokens of length at least 2 whose first character is alphabetic and
whose last character is a digit, take the first `max(1, key_len)` of them
and join with a bar. -/
def normalize_dna_key (dna : String) (key_len : ℤ) : String :=
  let s := pyStrip dna
  if s = "" then ""
  else
    let s2 := if pyStartsWith (pyLower s) "dna:" then pyStrip (pyDrop s 4)
      else s
    let toks := pySplitWs (pyReplace s2 "," " ")
    let toks2 := toks.filter
      (fun t => decide (2 ≤ t.length) && (t.data.headD ' ').isAlpha &&
        (t.data.getLastD ' ').isDigit)
    pyJoin "|" (toks2.take (max 1 key_len).toNat)

/-- Embeds `_band_from_verdict`: BLOCK maps to 1, WARN to 3, anything else
to 6. -/
def band_from_verdict (verdict : String) : ℤ :=
  let v := pyUpper verdict
  if v = "BLOCK" then 1 else if v = "WARN" then 3 else 6

/-- Flower invariant dictionary produced by `extract_flower`. -/
structure Flower where
  petal_area : ℚ
  points : List (ℚ × ℚ)
  deriving DecidableEq

/-- Embeds `extract_flower` of `memory/atom.py`: points from a non-empty
`flower_cycle` (each entry contributing its `risk`/`specH` values with
default 0), else from `flower.points`; the petal area is the shoelace
polygon area once at least three points are present. -/
def extract_flower (r : Report) : Flower :=
  let points :=
    match r.flower_cycle with
    | some (c :: cs) => (c :: cs).map (fun p => (p.risk.getD 0, p.specH.getD 0))
    | _ =>
        match r.flower with
        | some f => f.points.getD []
        | none => []
  { petal_area := if 3 ≤ points.length then polygon_area points else 0,
    points := points }

/-- Embeds `infer_phase_dir` of `memory/atom.py`: deltas of risk, spectral
entropy and cusum against the previous window (or against the baseline's
last risk, a neutral 0.5 entropy anchor, and the baseline cusum), a
dominant-drift override to directions 2/3 when `|d_cusum|` reaches the
gate, and otherwise a sign quadrant in directions 0/1/4/5.  Returns the
direction together with the `(d_risk, d_specH, d_cusum)` deltas. -/
def infer_phase_dir (r : Report) (cusum_gate : ℚ) : ℤ × (ℚ × ℚ × ℚ) :=
  let b := r.baseline.getD Baseline.empty
  let m := pick_metrics r
  let risk := (m.risk <|> m.last_risk).getD (r.risk.getD 0)
  let specH := (m.spectral_entropy <|> m.specH <|> m.entropy).getD 0
  let cusum := m.cusum.getD (b.cusum.getD 0)
  let deltas :=
    match pick_prev_metrics r with
    | some p =>
        (risk - p.risk.getD risk, specH - p.spectral_entropy.getD specH,
          cusum - p.cusum.getD cusum)
    | none =>
        (risk - b.last_risk.getD (b.mu.getD 0), specH - b.specH.getD (1 / 2),
          cusum - b.cusum.getD 0)
  let dir : ℤ :=
    if |deltas.2.2| ≥ cusum_gate then (if deltas.2.2 > 0 then 2 else 3)
    else if deltas.1 ≥ 0 ∧ deltas.2.1 ≥ 0 then 0
    else if deltas.1 ≥ 0 then 1
    else if deltas.2.1 ≥ 0 then 4
    else 5
  (dir, deltas)

/-- Stable payload of the identity hash.  `MemoryAtom.compute_atom_id`
serializes exactly these fields with a canonical key-sorted JSON encoding
and returns the SHA-256 digest of that string: equal payloads always give
equal digests, and distinct payloads give distinct digests up to SHA-256
collisions, so the digest is modelled by the payload itself. -/
structure AtomIdPayload where
  kind : String
  version : String
  verdict : String
  dna_key : String
  band : ℤ
  phase_state : ℤ
  bl_mu : ℚ
  bl_sigma : ℚ
  bl_warn : ℚ
  bl_block : ℚ
  mt_risk : ℚ
  mt_specH : ℚ
  mt_cusum : ℚ
  fl_petal_area : ℚ
  deriving DecidableEq

/-- Embeds `MemoryAtom.compute_atom_id`: the baseline subset and metric
subset are quantized to 6 decimal digits, the petal area to 9; the metric
risk falls back to `last_risk`, the metric `specH` to `spectral_entropy`,
and the metric cusum to the baseline cusum and then to 0. -/
def compute_atom_id (kind version verdict dna_key : String)
    (band phase_state : ℤ) (baseline : Baseline) (metrics : Metrics)
    (flower : Flower) : AtomIdPayload :=
  { kind := kind, version := version, verdict := verdict, dna_key := dna_key,
    band := band, phase_state := phase_state,
    bl_mu := qOpt 6 baseline.mu,
    bl_sigma := qOpt 6 baseline.sigma,
    bl_warn := qOpt 6 baseline.warn_threshold,
    bl_block := qOpt 6 baseline.block_threshold,
    mt_risk := qOpt 6 (metrics.risk <|> metrics.last_risk),
    mt_specH := qOpt 6 (metrics.specH <|> metrics.spectral_entropy),
    mt_cusum := q 6 ((metrics.cusum <|> baseline.cusum).getD 0),
    fl_petal_area := q 9 flower.petal_area }

/-- Embeds `MemoryAtom.compute_crystal_key`: stripped kind (default
`NAVIGATOR_REPORT`), joined with the stripped signature key by a colon
when the latter is non-empty. -/
def compute_crystal_key (kind dna_key : String) : String :=
  let k := if pyStrip kind = "" then "NAVIGATOR_REPORT" else pyStrip kind
  let d := pyStrip dna_key
  if d = "" then k else k ++ ":" ++ d

/-- Embeds the `MemoryAtom` dataclass of `memory/atom.py`.  The `deltas`
entry that `from_report` adds to the metrics dictionary is carried as a
separate field. -/
structure MemoryAtom where
  kind : String
  version : String
  verdict : String
  dna : String
  dna_key : String
  band : ℤ
  phase_dir : ℤ
  phase_state : ℤ
  baseline : Baseline
  metrics : Metrics
  deltas : ℚ × ℚ × ℚ
  flower : Flower
  crystal_key : String
  strength : ℤ
  first_seen : ℚ
  last_seen : ℚ
  context : List (String × String)
  atom_id : AtomIdPayload
  deriving DecidableEq

/-- Embeds `MemoryAtom.from_report` with the keyword arguments `key_len`,
`repo`, `ref`, `note`, `cusum_gate` explicit and the `time.time()` call
passed in as `now`. -/
def from_report (report : Report) (key_len : ℤ) (repo ref note : Option String)
    (cusum_gate : ℚ) (now : ℚ) : MemoryAtom :=
  let kind := orStr report.kind (orStr report.type_ "NAVIGATOR_REPORT")
  let version := orStr report.version "0.4"
  let verdict := pyUpper (orStr report.verdict "ALLOW")
  let dna := orStr report.dna ""
  let dna_key := normalize_dna_key dna key_len
  let baseline := report.baseline.getD Baseline.empty
  let metrics := pick_metrics report
  let pd := infer_phase_dir report cusum_gate
  let band0 : ℤ :=
    match report.band with
    | some b => orZ b (band_from_verdict verdict)
    | none => band_from_verdict verdict
  let band := max 1 (min 7 band0)
  let phase_state := phase_state_from band pd.1
  let flower := extract_flower report
  let ctxOf := fun (key : String) (v : Option String) =>
    match v with
    | some s => if s = "" then ([] : List (String × String)) else [(key, s)]
    | none => []
  { kind := kind, version := version, verdict := verdict, dna := dna,
    dna_key := dna_key, band := band, phase_dir := pd.1,
    phase_state := phase_state, baseline := baseline, metrics := metrics,
    deltas := pd.2, flower := flower,
    crystal_key := compute_crystal_key kind dna_key,
    strength := 1, first_seen := now, last_seen := now,
    context := ctxOf "repo" repo ++ ctxOf "ref" ref ++ ctxOf "note" note,
    atom_id := compute_atom_id kind version verdict dna_key band phase_state
      baseline metrics flower }

/-- Quantized stable subset of a baseline dictionary, as hashed by
`compute_atom_id`. -/
def stableBaseline (b : Baseline) : ℚ × ℚ × ℚ × ℚ :=
  (qOpt 6 b.mu, qOpt 6 b.sigma, qOpt 6 b.warn_threshold,
    qOpt 6 b.block_threshold)

/-- Quantized stable subset of a metrics dictionary (with its baseline
fallback for cusum), as hashed by `compute_atom_id`. -/
def stableMetrics (m : Metrics) (b : Baseline) : ℚ × ℚ × ℚ :=
  (qOpt 6 (m.risk <|> m.last_risk), qOpt 6 (m.specH <|> m.spectral_entropy),
    q 6 ((m.cusum <|> b.cusum).getD 0))

/-- C1: the identity hash of a memory atom is a pure function of the
stable field subset.  Two `from_report` calls on the same report that
differ only in the context arguments (repo/ref/note) and in the build
timestamp produce identical `atom_id` (in particular building twice from a
fixed report is deterministic), and two atoms built by `from_report` have
equal `atom_id` if and only if the stable subset — kind, version, verdict,
dna_key, band, phase state, quantized baseline subset, quantized metric
subset, and quantized flower area — coincides. -/
theorem C1_atom_id_pure :
    (∀ (rep : Report) (kl : ℤ) (gate now1 now2 : ℚ)
        (repo1 ref1 note1 repo2 ref2 note2 : Option String),
      (from_report rep kl repo1 ref1 note1 gate now1).atom_id =
        (from_report rep kl repo2 ref2 note2 gate now2).atom_id) ∧
    (∀ (rep1 rep2 : Report) (kl1 kl2 : ℤ) (g1 g2 n1 n2 : ℚ)
        (r1 f1 t1 r2 f2 t2 : Option String),
      let a1 := from_report rep1 kl1 r1 f1 t1 g1 n1
      let a2 := from_report rep2 kl2 r2 f2 t2 g2 n2
      (a1.atom_id = a2.atom_id ↔
        (a1.kind = a2.kind ∧ a1.version = a2.version ∧
          a1.verdict = a2.verdict ∧ a1.dna_key = a2.dna_key ∧
          a1.band = a2.band ∧ a1.phase_state = a2.phase_state ∧
          stableBaseline a1.baseline = stableBaseline a2.baseline ∧
          stableMetrics a1.metrics a1.baseline =
            stableMetrics a2.metrics a2.baseline ∧
          q 9 a1.flower.petal_area = q 9 a2.flower.petal_area))) := by
  constructor
  · intro rep kl gate now1 now2 repo1 ref1 note1 repo2 ref2 note2
    rfl
  · intro rep1 rep2 kl1 kl2 g1 g2 n1 n2 r1 f1 t1 r2 f2 t2
    simp only [from_report, compute_atom_id, AtomIdPayload.mk.injEq,
      stableBaseline, stableMetrics, Prod.mk.injEq]
    tauto

/-- The inferred phase direction is always one of 0..5. -/
theorem infer_phase_dir_range (r : Report) (g : ℚ) :
    0 ≤ (infer_phase_dir r g).1 ∧ (infer_phase_dir r g).1 ≤ 5 := by
  unfold infer_phase_dir
  dsimp only
  split_ifs <;> omega

/-- The combined phase state is clamped into 1..42 for all inputs. -/
theorem phase_state_from_range (b d : ℤ) :
    1 ≤ phase_state_from b d ∧ phase_state_from b d ≤ 42 := by
  unfold phase_state_from
  omega

/-- C9: regardless of the report's own band value or the magnitudes of its
numeric fields, an atom built by `from_report` satisfies band in `[1,7]`,
phase direction in `[0,5]`, and phase state in `[1,42]`. -/
theorem C9_from_report_ranges (rep : Report) (kl : ℤ)
    (repo ref note : Option String) (gate now : ℚ) :
    1 ≤ (from_report rep kl repo ref note gate now).band ∧
      (from_report rep kl repo ref note gate now).band ≤ 7 ∧
      0 ≤ (from_report rep kl repo ref note gate now).phase_dir ∧
      (from_report rep kl repo ref note gate now).phase_dir ≤ 5 ∧
      1 ≤ (from_report rep kl repo ref note gate now).phase_state ∧
      (from_report rep kl repo ref note gate now).phase_state ≤ 42 := by
  have hd := infer_phase_dir_range rep gate
  simp only [from_report]
  exact ⟨by omega, by omega, hd.1, hd.2, (phase_state_from_range _ _).1,
    (phase_state_from_range _ _).2⟩

/-- Flower bookkeeping of a store row: the accumulators that
`MemoryStore.upsert` reads with defaults may be missing. -/
structure FlowerRow where
  petal_area : Option ℚ
  area_sum : Option ℚ
  area_max : Option ℚ
  points : Option (List (ℚ × ℚ))
  deriving DecidableEq

/-- One row of `memory.jsonl` as `memory/store.py` manipulates it,
restricted to the keys `upsert` reads or writes.  Keys that `upsert` reads
with a default (`strength`, `first_seen`, `last_seen`, flower
accumulators) are `Option`; keys it only overwrites are plain.  The
`deltas` entry of the serialized metrics dictionary is not tracked. -/
structure StoreRow where
  crystal_key : String
  strength : Option ℤ
  first_seen : Option ℚ
  last_seen : Option ℚ
  verdict : String
  band : ℤ
  phase_dir : ℤ
  phase_state : ℤ
  dna : String
  dna_key : String
  kind : String
  version : String
  metrics : Metrics
  baseline : Baseline
  context : List (String × String)
  flower : FlowerRow
  atom_id : AtomIdPayload
  deriving DecidableEq

/-- Context merge of `upsert`: keep the existing entries, append the new
keys that are not yet present (existing values win on conflict). -/
def ctx_merge (old new : List (String × String)) : List (String × String) :=
  old ++ new.filter (fun kv => !old.any (fun okv => okv.1 == kv.1))

/-- Merge key of `upsert`: the atom's stripped `crystal_key`, or the
fallback `kind::(no_dna)` when it strips to the empty string. -/
def upsert_key (atom : MemoryAtom) : String :=
  let t := pyStrip atom.crystal_key
  if t = "" then atom.kind ++ "::(no_dna)" else t

/-- Fresh row inserted by `upsert` when no crystal key matches:
the atom's fields with strength defaulted through Python falsiness,
timestamps defaulted to `now`, and the flower accumulators initialized to
the atom's petal area. -/
def row_of_atom (atom : MemoryAtom) (ck : String) (now : ℚ) : StoreRow :=
  { crystal_key := ck,
    strength := some (orZ atom.strength 1),
    first_seen := some (orQ atom.first_seen now),
    last_seen := some (orQ atom.last_seen now),
    verdict := atom.verdict, band := atom.band, phase_dir := atom.phase_dir,
    phase_state := atom.phase_state, dna := atom.dna,
    dna_key := atom.dna_key, kind := atom.kind, version := atom.version,
    metrics := atom.metrics, baseline := atom.baseline,
    context := atom.context,
    flower := ⟨some atom.flower.petal_area, some atom.flower.petal_area,
      some atom.flower.petal_area, some atom.flower.points⟩,
    atom_id := atom.atom_id }

/-- Merge step of `upsert` on the matching row: strength incremented (a
missing or zero stored strength reads as 1), `first_seen` kept (a missing
or zero stored value falls back to `now`), `last_seen` set to `now`,
volatile fields replaced by the newest snapshot, context merged, and the
flower area accumulated. -/
def merge_row (r : StoreRow) (atom : MemoryAtom) (ck : String) (now : ℚ) :
    StoreRow :=
  let petal := atom.flower.petal_area
  { crystal_key := ck,
    strength := some (orOptZ r.strength 1 + 1),
    first_seen := some (orOptQ r.first_seen now),
    last_seen := some now,
    verdict := atom.verdict, band := atom.band, phase_dir := atom.phase_dir,
    phase_state := atom.phase_state, dna := atom.dna,
    dna_key := atom.dna_key, kind := atom.kind, version := atom.version,
    metrics := atom.metrics, baseline := atom.baseline,
    context := ctx_merge r.context atom.context,
    flower := ⟨some petal, some (r.flower.area_sum.getD 0 + petal),
      some (max (r.flower.area_max.getD 0) petal), some atom.flower.points⟩,
    atom_id := atom.atom_id }

/-- Row scan of `upsert`: the source locates the first row whose stripped
crystal key equals `ck` and rewrites the row list in place; this recursion
merges the first match and appends a fresh row at the end when no row
matches. -/
def upsertGo (atom : MemoryAtom) (ck : String) (now : ℚ) :
    List StoreRow → List StoreRow
  | [] => [row_of_atom atom ck now]
  | r :: rest =>
      if pyStrip r.crystal_key = ck then merge_row r atom ck now :: rest
      else r :: upsertGo atom ck now rest

/-- Embeds `MemoryStore.upsert` of `memory/store.py` on the in-memory row
list, with `time.time()` passed in as `now`. -/
def upsert (rows : List StoreRow) (atom : MemoryAtom) (now : ℚ) :
    List StoreRow :=
  upsertGo atom (upsert_key atom) now rows

/-- Minimal report carrying only a kind, used for concrete store tests. -/
def reportK : Report :=
  ⟨some "K", none, none, none, none, none, none, none, none, none, none,
    none, none, none⟩

/-- Atom built from `reportK` at time 1; its crystal key is `K`. -/
def atomK : MemoryAtom := from_report reportK 3 none none none (1 / 20) 1

/-- Store row with crystal key `K` whose stored strength is 0, stored
`first_seen` is 0.0 and stored `last_seen` is 3 — a row state the program
never writes itself but a syntactically valid store line. -/
def rowBad : StoreRow :=
  { crystal_key := "K", strength := some 0, first_seen := some 0,
    last_seen := some 3, verdict := "ALLOW", band := 6, phase_dir := 1,
    phase_state := 32, dna := "", dna_key := "", kind := "K",
    version := "0.4", metrics := Metrics.empty, baseline := Baseline.empty,
    context := [], flower := ⟨none, none, none, none⟩,
    atom_id := atomK.atom_id }

/-- Store row with crystal key `K` and ordinary bookkeeping values. -/
def rowGood : StoreRow :=
  { crystal_key := "K", strength := some 1, first_seen := some 1,
    last_seen := some 1, verdict := "ALLOW", band := 6, phase_dir := 1,
    phase_state := 32, dna := "", dna_key := "", kind := "K",
    version := "0.4", metrics := Metrics.empty, baseline := Baseline.empty,
    context := [], flower := ⟨none, none, none, none⟩,
    atom_id := atomK.atom_id }

/-- Copy of `rowGood` whose crystal key carries a trailing space. -/
def rowSpace : StoreRow :=
  { rowGood with crystal_key := "K " }

/-- C4 fails as stated: on the store `[rowBad]` (an existing row with
crystal key `K`, strength 0, `first_seen` 0.0, `last_seen` 3) and the
matching atom `atomK` upserted at time 2, the merged row has strength 2
(an increase of 2, not exactly 1, because Python `0 or 1` reads the stored
0 as missing), `first_seen` 2 (increased from 0, same falsy coercion), and
`last_seen` 2 (decreased from 3, because the call time is earlier). -/
theorem C4_counterexample :
    rowBad.strength = some 0 ∧ rowBad.first_seen = some 0 ∧
      rowBad.last_seen = some 3 ∧
      (upsert [rowBad] atomK 2).map
          (fun r => (r.strength, r.first_seen, r.last_seen)) =
        [(some 2, some 2, some 2)] ∧
      ((2 : ℤ) ≠ 0 + 1 ∧ ¬((2 : ℚ) ≤ 0) ∧ ¬((3 : ℚ) ≤ 2)) := by
  refine ⟨rfl, rfl, rfl, by decide, by norm_num⟩

/-- Helper: `upsert` merges exactly the first row whose stripped crystal
key matches, leaving all other rows untouched. -/
theorem upsertGo_append (atom : MemoryAtom) (ck : String) (now : ℚ)
    (pre : List StoreRow) (r : StoreRow) (post : List StoreRow)
    (hpre : ∀ p ∈ pre, pyStrip p.crystal_key ≠ ck)
    (hr : pyStrip r.crystal_key = ck) :
    upsertGo atom ck now (pre ++ r :: post) =
      pre ++ merge_row r atom ck now :: post := by
  induction pre with
  | nil => simp [upsertGo, hr]
  | cons p ps ih =>
      have hp : pyStrip p.crystal_key ≠ ck := hpre p (List.mem_cons_self p ps)
      simp only [List.cons_append, upsertGo, if_neg hp, List.append_eq]
      rw [ih (fun x hx => hpre x (List.mem_cons_of_mem p hx))]

/-- C4 amended: when the matching row stores a non-zero strength, a
non-zero `first_seen`, and a `last_seen` not later than the call time (as
every row written by the program does), `upsert` increases that row's
strength by exactly 1, keeps its `first_seen`, and sets its `last_seen` to
the call time, which does not decrease it. -/
theorem C4_upsert_merge (pre post : List StoreRow) (r : StoreRow)
    (atom : MemoryAtom) (now : ℚ)
    (hpre : ∀ p ∈ pre, pyStrip p.crystal_key ≠ upsert_key atom)
    (hr : pyStrip r.crystal_key = upsert_key atom)
    (s : ℤ) (hs : r.strength = some s) (hs0 : s ≠ 0)
    (f : ℚ) (hf : r.first_seen = some f) (hf0 : f ≠ 0)
    (l : ℚ) (hl : r.last_seen = some l) (hnow : l ≤ now) :
    upsert (pre ++ r :: post) atom now =
        pre ++ merge_row r atom (upsert_key atom) now :: post ∧
      (merge_row r atom (upsert_key atom) now).strength = some (s + 1) ∧
      (merge_row r atom (upsert_key atom) now).first_seen = some f ∧
      (merge_row r atom (upsert_key atom) now).last_seen = some now ∧
      l ≤ now := by
  refine ⟨upsertGo_append atom _ now pre r post hpre hr, ?_, ?_, rfl, hnow⟩
  · simp [merge_row, hs, orOptZ, orZ, hs0]
  · simp [merge_row, hf, orOptQ, orQ, hf0]

/-- Witness for the amended C4 on the one-row store `[rowGood]` and the
matching atom `atomK` at time 2: strength 1 becomes 2, `first_seen` stays
1, `last_seen` becomes 2. -/
theorem C4_upsert_merge_witness :
    pyStrip rowGood.crystal_key = upsert_key atomK ∧
      upsert [rowGood] atomK 2 =
        [merge_row rowGood atomK (upsert_key atomK) 2] ∧
      (merge_row rowGood atomK (upsert_key atomK) 2).strength =
        some (1 + 1) ∧
      (merge_row rowGood atomK (upsert_key atomK) 2).first_seen = some 1 ∧
      (merge_row rowGood atomK (upsert_key atomK) 2).last_seen = some 2 := by
  have h := C4_upsert_merge [] [] rowGood atomK 2
    (by intro p hp; simp at hp) (by decide)
    1 (by decide) (by decide) 1 (by decide) (by decide) 1 (by decide)
    (by norm_num)
  exact ⟨by decide, by simpa using h.1, h.2.1, h.2.2.1, h.2.2.2.1⟩

/-- C10 fails as stated: the store `[rowSpace, rowGood]` has two distinct
crystal keys (`K` with a trailing space, and `K`), yet upserting the atom
with crystal key `K` merges into the first row (matching is on stripped
keys and rewrites the merged key to the stripped form), leaving two rows
that both carry the key `K`. -/
theorem C10_counterexample :
    (([rowSpace, rowGood].map StoreRow.crystal_key).Pairwise (· ≠ ·)) ∧
      (upsert [rowSpace, rowGood] atomK 2).map StoreRow.crystal_key =
        ["K", "K"] ∧
      ¬(((upsert [rowSpace, rowGood] atomK 2).map
          StoreRow.crystal_key).Pairwise (· ≠ ·)) := by
  refine ⟨by decide, by decide, by decide⟩

/-- Every key of the rows produced by the upsert scan is either a key of
the input rows or the merge key itself. -/
theorem upsertGo_key_mem (atom : MemoryAtom) (ck : String) (now : ℚ) :
    ∀ (rows : List StoreRow) (x : StoreRow), x ∈ upsertGo atom ck now rows →
      x.crystal_key ∈ rows.map StoreRow.crystal_key ∨ x.crystal_key = ck := by
  intro rows
  induction rows with
  | nil =>
      intro x hx
      simp only [upsertGo, List.mem_singleton] at hx
      subst hx
      right
      rfl
  | cons r rest ih =>
      intro x hx
      simp only [upsertGo] at hx
      by_cases h : pyStrip r.crystal_key = ck
      · rw [if_pos h] at hx
        rcases List.mem_cons.mp hx with hx | hx
        · subst hx; right; rfl
        · left; exact List.mem_cons_of_mem _ (List.mem_map_of_mem _ hx)
      · rw [if_neg h] at hx
        rcases List.mem_cons.mp hx with hx | hx
        · subst hx; left; exact List.mem_cons_self _ _
        · rcases ih x hx with hm | hm
          · left; exact List.mem_cons_of_mem _ hm
          · right; exact hm

/-- C10 amended: on every store whose rows carry whitespace-stripped,
pairwise-distinct crystal keys, upserting an atom whose crystal key is
itself non-empty and whitespace-stripped (as every atom built by
`from_report` or `from_dict` is) preserves both properties: keys stay
stripped and each crystal key still occurs in at most one row. -/
theorem C10_upsert_unique (rows : List StoreRow) (atom : MemoryAtom)
    (now : ℚ)
    (h1 : ∀ r ∈ rows, pyStrip r.crystal_key = r.crystal_key)
    (h2 : (rows.map StoreRow.crystal_key).Pairwise (· ≠ ·))
    (hat : pyStrip atom.crystal_key = atom.crystal_key)
    (hane : atom.crystal_key ≠ "") :
    (∀ r ∈ upsert rows atom now, pyStrip r.crystal_key = r.crystal_key) ∧
      ((upsert rows atom now).map StoreRow.crystal_key).Pairwise (· ≠ ·) := by
  have hck : upsert_key atom = atom.crystal_key := by
    simp [upsert_key, hat, hane]
  have hcktrim : pyStrip (upsert_key atom) = upsert_key atom := by
    rw [hck, hat]
  unfold upsert
  generalize hgen : upsert_key atom = ck at hcktrim ⊢
  clear hck hgen hane hat
  induction rows with
  | nil =>
      constructor
      · intro r hr
        simp only [upsertGo, List.mem_singleton] at hr
        subst hr
        exact hcktrim
      · simp [upsertGo]
  | cons r rest ih =>
      have hrt : pyStrip r.crystal_key = r.crystal_key :=
        h1 r (List.mem_cons_self r rest)
      have h1r : ∀ x ∈ rest, pyStrip x.crystal_key = x.crystal_key :=
        fun x hx => h1 x (List.mem_cons_of_mem r hx)
      rw [List.map_cons, List.pairwise_cons] at h2
      simp only [upsertGo]
      by_cases h : pyStrip r.crystal_key = ck
      · rw [if_pos h]
        have hrk : r.crystal_key = ck := hrt.symm.trans h
        constructor
        · intro x hx
          rcases List.mem_cons.mp hx with hx | hx
          · subst hx; exact hcktrim
          · exact h1r x hx
        · rw [List.map_cons]
          rw [List.pairwise_cons]
          refine ⟨?_, h2.2⟩
          intro b hb
          have := h2.1 b hb
          rwa [hrk] at this
      · rw [if_neg h]
        have ihr := ih h1r h2.2
        constructor
        · intro x hx
          rcases List.mem_cons.mp hx with hx | hx
          · subst hx; exact hrt
          · exact ihr.1 x hx
        · rw [List.map_cons, List.pairwise_cons]
          refine ⟨?_, ihr.2⟩
          intro b hb
          rcases List.mem_map.mp hb with ⟨x, hx, hxb⟩
          rcases upsertGo_key_mem atom ck now rest x hx with hm | hm
          · exact h2.1 b (hxb ▸ hm)
          · rw [← hxb, hm]
            intro hcon
            exact h (hcon ▸ hrt)

/-- Witness for the amended C10: upserting `atomK` into the empty store
yields a one-row store with stripped, unique crystal keys. -/
theorem C10_upsert_unique_witness :
    (∀ r ∈ upsert [] atomK 2, pyStrip r.crystal_key = r.crystal_key) ∧
      ((upsert [] atomK 2).map StoreRow.crystal_key).Pairwise (· ≠ ·) :=
  C10_upsert_unique [] atomK 2 (by simp) (by simp) (by decide) (by decide)

/-- Baseline keys of a report that `memory/meta.py` reads. -/
structure MetaBaseline where
  warn_threshold : Option ℚ
  block_threshold : Option ℚ
  deriving DecidableEq

/-- Report keys that `adjust_thresholds` of `memory/meta.py` reads. -/
structure MetaReport where
  baseline : Option MetaBaseline
  verdict : Option String
  dna : Option String
  structural_dna : Option String
  band : Option ℤ
  deriving DecidableEq

/-- Atom-row keys that `adjust_thresholds` reads from the store file. -/
structure MetaAtom where
  verdict : Option String
  band : Option ℤ
  dna : Option String
  deriving DecidableEq

/-- Embeds `_dna_prefix` of `memory/meta.py`: drop `DNA:` literals, strip,
split on whitespace, keep the first three tokens joined by spaces. -/
def dnaPrefix3 (dna : String) : String :=
  if dna = "" then ""
  else pyJoin " " ((pySplitWs (pyStrip (pyReplace dna "DNA:" ""))).take 3)

/-- Strong-match test of `adjust_thresholds`: the report has no band, or
the atom's band equals it. -/
def bandMatch (curBand : Option ℤ) (a : MetaAtom) : Bool :=
  match curBand with
  | none => true
  | some c => a.band == some c

/-- Soft-match test of `adjust_thresholds`: the report has no DNA prefix,
or the atom's DNA prefix equals it. -/
def prefixMatch (curPref : String) (a : MetaAtom) : Bool :=
  if curPref = "" then true else dnaPrefix3 (a.dna.getD "") == curPref

/-- Weight of one matching atom: 1 plus 0.5 for each satisfied match. -/
def metaWeight (bm pm : Bool) : ℚ :=
  1 + (if bm then 1 / 2 else 0) + (if pm then 1 / 2 else 0)

/-- One step of the danger/support accumulation loop of
`adjust_thresholds`: skip an atom matching neither test; otherwise add
the weight to the support and a verdict-scaled weight to the danger (the
float literal `0.35` is the WARN scale, written `7/20` exactly). -/
def dsStep (curBand : Option ℤ) (curPref : String) (acc : ℚ × ℚ)
    (a : MetaAtom) : ℚ × ℚ :=
  let bm := bandMatch curBand a
  let pm := prefixMatch curPref a
  if !bm && !pm then acc
  else
    let w := metaWeight bm pm
    (acc.1 +
      (if a.verdict.getD "" = "BLOCK" then w
        else if a.verdict.getD "" = "WARN" then (7 / 20) * w else 0),
      acc.2 + w)

/-- Danger/support accumulation of `adjust_thresholds` over the loaded
atoms. -/
def dangerSupport (curBand : Option ℤ) (curPref : String)
    (atoms : List MetaAtom) : ℚ × ℚ :=
  atoms.foldl (dsStep curBand curPref) (0, 0)

/-- Adjustment dictionary returned by `adjust_thresholds`; the textual
`note` entry is omitted. -/
structure MetaAdjustment where
  warn_threshold : ℚ
  block_threshold : ℚ
  delta_warn : ℚ
  delta_block : ℚ
  danger_ratio : ℚ
  deriving DecidableEq

/-- DNA prefix of the current report in `adjust_thresholds`: the `dna`
key, falling back to `structural_dna` and then the empty string. -/
def curPrefixOf (r : MetaReport) : String :=
  dnaPrefix3 ((r.dna <|> r.structural_dna).getD "")

/-- Embeds `adjust_thresholds` of `memory/meta.py` on the in-memory atom
list.  The JSONL loop keeps the last `lookback` rows (`lookback = 0`
degenerates to the whole list through Python's `[-0:]` slice); support at
most `1e-9` returns the thresholds unchanged, otherwise both thresholds
are scaled by `1 - shrink` with `shrink = min(0.20, max(0, ratio*0.20))`. -/
def adjust_thresholds (report : MetaReport) (atoms : List MetaAtom)
    (lookback : ℕ) : MetaAdjustment :=
  let b := report.baseline.getD ⟨none, none⟩
  let warn := b.warn_threshold.getD 0
  let blockv := b.block_threshold.getD 0
  let recent := if lookback = 0 then atoms
    else atoms.drop (atoms.length - lookback)
  let ds := dangerSupport report.band (curPrefixOf report) recent
  if ds.2 ≤ 1 / 10 ^ 9 then ⟨warn, blockv, 0, 0, 0⟩
  else
    let ratio := ds.1 / ds.2
    let shrink := min (1 / 5) (max 0 (ratio * (1 / 5)))
    ⟨warn * (1 - shrink), blockv * (1 - shrink),
      warn * (1 - shrink) - warn, blockv * (1 - shrink) - blockv, ratio⟩

/-- Baseline keys of a report that `hfs/ai_validator_hfs.py` reads. -/
structure VBaseline where
  warn_threshold : Option ℚ
  block_threshold : Option ℚ
  last_risk : Option ℚ
  deriving DecidableEq

/-- Report keys that `meta_adjust` of `hfs/ai_validator_hfs.py` reads. -/
structure VReport where
  dna : Option String
  kind : Option String
  verdict : Option String
  warn_threshold : Option ℚ
  block_threshold : Option ℚ
  risk : Option ℚ
  baseline : Option VBaseline
  deriving DecidableEq

/-- Memory-item keys that `meta_adjust` reads. -/
structure VAtom where
  kind : Option String
  dna : Option String
  verdict : Option String
  band : Option ℚ
  deriving DecidableEq

/-- Embeds `_clamp` of `hfs/ai_validator_hfs.py`. -/
def clampQ (x lo hi : ℚ) : ℚ :=
  max lo (min hi x)

/-- Embeds `_dna_tokens` of `hfs/ai_validator_hfs.py`: strip, drop `DNA:`
literals, split on whitespace, keep tokens of length at least 2 whose
first character is alphabetic and whose remaining characters are all
digits. -/
def dnaTokens (dna : String) : List String :=
  (pySplitWs (pyStrip (pyReplace (pyStrip dna) "DNA:" ""))).filter
    (fun p => decide (2 ≤ p.length) && (p.data.headD ' ').isAlpha &&
      (p.data.drop 1).all Char.isDigit)

/-- Embeds `_jaccard`: set-intersection over set-union cardinality of the
token lists, 0 when both sets are empty.  Python sets are modelled by
deduplicated lists. -/
def jaccard (a b : List String) : ℚ :=
  let sa := a.dedup
  let sb := b.dedup
  if sa.isEmpty && sb.isEmpty then 0
  else ((sa.filter (fun x => sb.contains x)).length : ℚ) /
    (((sa ++ sb).dedup).length : ℚ)

/-- Kind filter of the `meta_adjust` loop: skip the item when the report
has a truthy kind and the item's kind differs. -/
def kindSkip (report : VReport) (it : VAtom) : Bool :=
  match report.kind with
  | some k => if k = "" then false else decide (it.kind ≠ some k)
  | none => false

/-- Similarity score of one memory item in `meta_adjust`: Jaccard overlap
of the DNA token sets plus a 0.05 boost on an identical verdict entry. -/
def vSim (report : VReport) (it : VAtom) : ℚ :=
  jaccard (dnaTokens (report.dna.getD "")) (dnaTokens (it.dna.getD "")) +
    (if it.verdict = report.verdict then 1 / 20 else 0)

/-- Stable descending insertion by similarity: a new element goes after
every element with an equal or larger key, modelling the stability of
Python's `sort(key=..., reverse=True)`. -/
def insertDescBySim (x : ℚ × VAtom) :
    List (ℚ × VAtom) → List (ℚ × VAtom)
  | [] => [x]
  | y :: rest => if y.1 < x.1 then x :: y :: rest else y :: insertDescBySim x rest

/-- Stable descending sort by similarity (Python's list sort is stable,
so any stable sort over the same key order is observationally equal). -/
def sortDescBySim (l : List (ℚ × VAtom)) : List (ℚ × VAtom) :=
  l.foldl (fun acc x => insertDescBySim x acc) []

/-- Result triple of `meta_adjust` (verdict, adjusted risk, and the debug
entries the claims mention). -/
structure MetaAdjustResult where
  verdict_meta : String
  risk_meta : ℚ
  matched : ℕ
  penalty : ℚ
  warn_threshold : ℚ
  block_threshold : ℚ
  deriving DecidableEq

/-- Candidate selection of `meta_adjust`: drop items of a foreign kind,
score the rest by `vSim`, keep positive similarities, sort stably by
descending similarity and take the first `k` items. -/
def metaTop (report : VReport) (items : List VAtom) (k : ℕ) : List VAtom :=
  let scored := sortDescBySim
    (((items.filter (fun it => !kindSkip report it)).map
      (fun it => (vSim report it, it))).filter (fun p => decide (0 < p.1)))
  (scored.take k).map (fun p => p.2)

/-- Embeds `meta_adjust` of `hfs/ai_validator_hfs.py`: score the memory
items by DNA similarity, keep the top `k`, and add a clamped penalty built
from the historical BLOCK rate and the average band to the report's risk;
the thresholds are only read, never changed.  Note the falsy coercion on
the block threshold: a stored `0.0` reads as the default `1.0`. -/
def meta_adjust (report : VReport) (items : List VAtom) (k : ℕ)
    (min_matches : ℕ) (alpha_block alpha_band max_penalty : ℚ) :
    MetaAdjustResult :=
  let top := metaTop report items k
  let matched := top.length
  let baseline := report.baseline.getD ⟨none, none, none⟩
  let warn_th := (report.warn_threshold <|> baseline.warn_threshold).getD 0
  let block_th := orQ ((report.block_threshold <|> baseline.block_threshold).getD 1) 1
  let base_verdict := report.verdict.getD "ALLOW"
  let risk := (report.risk <|> baseline.last_risk).getD 0
  if matched = 0 then ⟨base_verdict, risk, 0, 0, warn_th, block_th⟩
  else
    let n_block := (top.filter (fun it => it.verdict == some "BLOCK")).length
    let block_rate := (n_block : ℚ) / (matched : ℚ)
    let bands := top.filterMap (fun it => it.band)
    let avg_band := if bands.isEmpty then 0
      else bands.sum / (bands.length : ℚ)
    let penalty := clampQ (alpha_block * block_rate + alpha_band * (avg_band / 7))
      0 max_penalty
    let risk_meta := clampQ (risk + penalty) 0 1
    let verdict_meta := if matched < min_matches then base_verdict
      else if risk_meta > block_th then "BLOCK"
      else if risk_meta > warn_th then "WARN"
      else "ALLOW"
    ⟨verdict_meta, risk_meta, matched, penalty, warn_th, block_th⟩

/-- When no loaded atom matches either test, the danger/support
accumulation stays at zero. -/
theorem dangerSupport_nomatch (cb : Option ℤ) (cp : String)
    (atoms : List MetaAtom)
    (h : ∀ a ∈ atoms, bandMatch cb a = false ∧ prefixMatch cp a = false) :
    dangerSupport cb cp atoms = (0, 0) := by
  unfold dangerSupport
  induction atoms with
  | nil => rfl
  | cons a rest ih =>
      have ha := h a (List.mem_cons_self a rest)
      rw [List.foldl_cons,
        show dsStep cb cp (0, 0) a = (0, 0) by simp [dsStep, ha.1, ha.2]]
      exact ih (fun x hx => h x (List.mem_cons_of_mem a hx))

/-- Both thresholds returned by `adjust_thresholds` are the input
thresholds scaled by a common factor `1 - s` with `s` in `[0, 1/5]`. -/
theorem adjust_thresholds_mul (report : MetaReport) (atoms : List MetaAtom)
    (lookback : ℕ) :
    ∃ s : ℚ,
      (adjust_thresholds report atoms lookback).warn_threshold =
          (report.baseline.getD ⟨none, none⟩).warn_threshold.getD 0 *
            (1 - s) ∧
        (adjust_thresholds report atoms lookback).block_threshold =
          (report.baseline.getD ⟨none, none⟩).block_threshold.getD 0 *
            (1 - s) ∧
        0 ≤ s ∧ s ≤ 1 / 5 := by
  unfold adjust_thresholds
  dsimp only
  split_ifs
  · refine ⟨0, ?_, ?_, le_refl 0, by norm_num⟩ <;> simp
  · exact ⟨_, rfl, rfl, le_min (by norm_num) (le_max_left 0 _),
      min_le_left _ _⟩
  · refine ⟨0, ?_, ?_, le_refl 0, by norm_num⟩ <;> simp
  · exact ⟨_, rfl, rfl, le_min (by norm_num) (le_max_left 0 _),
      min_le_left _ _⟩

/-- C5: for every input report and every store contents, the shrink
factor `1 - s` that `adjust_thresholds` applies to the warn/block
thresholds lies within `[0.65, 1]` (the code keeps `s` within `[0, 0.2]`,
so the factor is even within `[0.8, 1]`), and when no loaded atom matches
the report the thresholds are returned unchanged with zero deltas. -/
theorem C5_meta_shrink_bounds (report : MetaReport) (atoms : List MetaAtom)
    (lookback : ℕ) :
    (∃ s : ℚ,
      (adjust_thresholds report atoms lookback).warn_threshold =
          (report.baseline.getD ⟨none, none⟩).warn_threshold.getD 0 *
            (1 - s) ∧
        (adjust_thresholds report atoms lookback).block_threshold =
          (report.baseline.getD ⟨none, none⟩).block_threshold.getD 0 *
            (1 - s) ∧
        13 / 20 ≤ 1 - s ∧ 1 - s ≤ 1) ∧
    ((∀ a ∈ (if lookback = 0 then atoms
          else atoms.drop (atoms.length - lookback)),
        bandMatch report.band a = false ∧
          prefixMatch (curPrefixOf report) a = false) →
      (adjust_thresholds report atoms lookback).warn_threshold =
          (report.baseline.getD ⟨none, none⟩).warn_threshold.getD 0 ∧
        (adjust_thresholds report atoms lookback).block_threshold =
          (report.baseline.getD ⟨none, none⟩).block_threshold.getD 0 ∧
        (adjust_thresholds report atoms lookback).delta_warn = 0 ∧
        (adjust_thresholds report atoms lookback).delta_block = 0) := by
  constructor
  · obtain ⟨s, hw, hb, hs0, hs1⟩ := adjust_thresholds_mul report atoms lookback
    exact ⟨s, hw, hb, by linarith, by linarith⟩
  · intro hall
    have hds := dangerSupport_nomatch report.band (curPrefixOf report) _ hall
    unfold adjust_thresholds
    dsimp only
    rw [hds]
    norm_num

/-- Report with baseline thresholds 0.3/0.4, band 1, and DNA `X1 Y2`. -/
def metaReportW : MetaReport :=
  ⟨some ⟨some (3 / 10), some (2 / 5)⟩, some "ALLOW", some "X1 Y2", none,
    some 1⟩

/-- Stored atom whose band (2) and DNA prefix (`Z9`) both differ from
`metaReportW`. -/
def metaAtomW : MetaAtom := ⟨some "BLOCK", some 2, some "Z9"⟩

/-- Witness for C5: against the single non-matching atom `metaAtomW`, the
thresholds 0.3/0.4 of `metaReportW` come back unchanged with zero
deltas. -/
theorem C5_meta_shrink_bounds_witness :
    (adjust_thresholds metaReportW [metaAtomW] 200).warn_threshold =
        3 / 10 ∧
      (adjust_thresholds metaReportW [metaAtomW] 200).block_threshold =
        2 / 5 ∧
      (adjust_thresholds metaReportW [metaAtomW] 200).delta_warn = 0 ∧
      (adjust_thresholds metaReportW [metaAtomW] 200).delta_block = 0 := by
  have h := (C5_meta_shrink_bounds metaReportW [metaAtomW] 200).2 (by decide)
  exact ⟨h.1, h.2.1, h.2.2.1, h.2.2.2⟩

/-- Report for the validator meta step: DNA `T1`, verdict ALLOW, no
thresholds, no risk (so the base risk reads as 0). -/
def vReportC : VReport := ⟨some "T1", none, some "ALLOW", none, none, none, none⟩

/-- Stored memory item with the same DNA token `T1`, verdict BLOCK and
band 1. -/
def vAtomC : VAtom := ⟨none, some "T1", some "BLOCK", some 1⟩

/-- Lower bound of the clamp helper. -/
theorem clampQ_lb (x lo hi : ℚ) : lo ≤ clampQ x lo hi :=
  le_max_left lo _

/-- Upper bound of the clamp helper, for a well-ordered interval. -/
theorem clampQ_ub (x lo hi : ℚ) (h : lo ≤ hi) : clampQ x lo hi ≤ hi :=
  max_le h (min_le_left hi x)

/-- Similarity of `vReportC` against `vAtomC` evaluates to 1: identical
one-token DNA sets and no verdict boost. -/
theorem vSimC_eval : vSim vReportC vAtomC = 1 := by
  have h0 : vSim vReportC vAtomC = ((1 : ℕ) : ℚ) / ((1 : ℕ) : ℚ) + 0 := rfl
  rw [h0]
  norm_num

/-- Candidate selection on `vReportC` against the single item `vAtomC`
keeps exactly that item. -/
theorem metaTopC_eval : metaTop vReportC [vAtomC] 25 = [vAtomC] := by
  have h1 : (([vAtomC].filter (fun it => !kindSkip vReportC it)).map
      (fun it => (vSim vReportC it, it))).filter
        (fun p => decide (0 < p.1)) = [(vSim vReportC vAtomC, vAtomC)] := by
    rw [show ([vAtomC].filter (fun it => !kindSkip vReportC it)).map
      (fun it => (vSim vReportC it, it)) =
        [(vSim vReportC vAtomC, vAtomC)] from rfl]
    simp only [List.filter_cons, List.filter_nil, vSimC_eval]
    norm_num
  unfold metaTop
  dsimp only
  rw [h1]
  rfl

/-- C6 fails as stated: the validator meta step (`meta_adjust` of
`hfs/ai_validator_hfs.py`, run with its default parameters) does modify
the raw risk — on `vReportC` (risk 0) against the matching BLOCK item
`vAtomC` it returns `risk_meta = 33/175`, the base risk plus the penalty
`0.18*1 + 0.06*(1/7)`. -/
theorem C6_counterexample :
    ((vReportC.risk <|>
        (vReportC.baseline.getD ⟨none, none, none⟩).last_risk).getD 0
      = 0) ∧
      (meta_adjust vReportC [vAtomC] 25 3 (9 / 50) (3 / 50)
          (1 / 4)).risk_meta = 33 / 175 ∧
      (33 / 175 : ℚ) ≠ 0 := by
  refine ⟨rfl, ?_, by norm_num⟩
  unfold meta_adjust
  dsimp only
  rw [metaTopC_eval,
    show ([vAtomC].filter (fun it => it.verdict == some "BLOCK")).length
      = 1 from rfl,
    show [vAtomC].filterMap (fun it => it.band) = [(1 : ℚ)] from rfl,
    show ((vReportC.risk <|>
      (vReportC.baseline.getD ⟨none, none, none⟩).last_risk).getD 0)
      = 0 from rfl]
  norm_num [clampQ, min_def, max_def]

/-- C6 amended: only the threshold meta-controller (`adjust_thresholds`
of `memory/meta.py`) is purely multiplicative on the warn/block
thresholds — it outputs nothing but scaled thresholds and deltas, leaving
mu, sigma and the risk untouched.  The validator meta step (`meta_adjust`
of `hfs/ai_validator_hfs.py`, default parameters) leaves the thresholds
unchanged but adjusts the risk additively: with no matches the risk
passes through, and with matches the returned risk is
`clamp(risk + penalty, 0, 1)` for a penalty in `[0, 0.25]`. -/
theorem C6_meta_frame :
    (∀ (report : MetaReport) (atoms : List MetaAtom) (lookback : ℕ),
      ∃ s : ℚ,
        (adjust_thresholds report atoms lookback).warn_threshold =
            (report.baseline.getD ⟨none, none⟩).warn_threshold.getD 0 *
              (1 - s) ∧
          (adjust_thresholds report atoms lookback).block_threshold =
            (report.baseline.getD ⟨none, none⟩).block_threshold.getD 0 *
              (1 - s) ∧
          0 ≤ s ∧ s ≤ 1 / 5) ∧
    (∀ (report : VReport) (items : List VAtom),
      (meta_adjust report items 25 3 (9 / 50) (3 / 50)
          (1 / 4)).warn_threshold =
          (report.warn_threshold <|>
            (report.baseline.getD ⟨none, none, none⟩).warn_threshold).getD
            0 ∧
        (meta_adjust report items 25 3 (9 / 50) (3 / 50)
            (1 / 4)).block_threshold =
          orQ ((report.block_threshold <|>
            (report.baseline.getD ⟨none, none, none⟩).block_threshold).getD
            1) 1 ∧
        ((meta_adjust report items 25 3 (9 / 50) (3 / 50)
            (1 / 4)).matched = 0 →
          (meta_adjust report items 25 3 (9 / 50) (3 / 50)
              (1 / 4)).risk_meta =
            (report.risk <|>
              (report.baseline.getD ⟨none, none, none⟩).last_risk).getD 0) ∧
        ((meta_adjust report items 25 3 (9 / 50) (3 / 50)
            (1 / 4)).matched ≠ 0 →
          ∃ p : ℚ, 0 ≤ p ∧ p ≤ 1 / 4 ∧
            (meta_adjust report items 25 3 (9 / 50) (3 / 50)
                (1 / 4)).risk_meta =
              clampQ ((report.risk <|>
                (report.baseline.getD ⟨none, none, none⟩).last_risk).getD 0
                + p) 0 1)) := by
  refine ⟨adjust_thresholds_mul, fun report items => ?_⟩
  unfold meta_adjust
  dsimp only
  by_cases h : (metaTop report items 25).length = 0
  · rw [if_pos h]
    exact ⟨rfl, rfl, fun _ => rfl, fun hc => absurd rfl hc⟩
  · rw [if_neg h]
    exact ⟨rfl, rfl, fun hc => absurd hc h, fun _ =>
      ⟨_, clampQ_lb _ _ _, clampQ_ub _ _ _ (by norm_num), rfl⟩⟩

/-- Witness for the amended C6: on `vReportC` and the matching item
`vAtomC` the match count is non-zero and the returned risk is the clamped
sum of the base risk and a penalty within `[0, 1/4]`. -/
theorem C6_meta_frame_witness :
    (meta_adjust vReportC [vAtomC] 25 3 (9 / 50) (3 / 50)
        (1 / 4)).matched ≠ 0 ∧
      ∃ p : ℚ, 0 ≤ p ∧ p ≤ 1 / 4 ∧
        (meta_adjust vReportC [vAtomC] 25 3 (9 / 50) (3 / 50)
            (1 / 4)).risk_meta =
          clampQ ((vReportC.risk <|>
            (vReportC.baseline.getD ⟨none, none, none⟩).last_risk).getD 0
            + p) 0 1 := by
  have hm : (meta_adjust vReportC [vAtomC] 25 3 (9 / 50) (3 / 50)
      (1 / 4)).matched ≠ 0 := by
    unfold meta_adjust
    dsimp only
    rw [metaTopC_eval]
    norm_num
  exact ⟨hm, ((C6_meta_frame.2 vReportC [vAtomC]).2.2.2) hm⟩

end GitCube
